import Mathlib

deriving instance DecidableEq for Except

/-!
Shallow embedding of the task-management backend
(src/todo_backend/app/routes/tasks.py) and proofs of its CRUD contract.

Modelling conventions:
* Python strings are Lean strings; Python str.strip is modelled by the
  function strip below (drop leading and trailing whitespace characters).
* Timestamps are abstract clock readings, modelled as natural numbers;
  each mutating operation receives the current reading as a parameter
  (the code calls datetime.utcnow for it).
* The module-level dict _TASKS (insertion-ordered, keyed by the integer
  id) is an association list, and the module-level counter _NEXT_ID is a
  natural number; both live in StoreState.
* Marshmallow schema validation runs before a handler body; it is
  modelled by loadCreate and loadUpdate returning Except.  The error
  kinds InvalidInput and NotFound follow the specification's taxonomy.
* A request body is a record of the optional recognized fields (title,
  completed); an absent field is none.
-/

namespace TodoBackend

/-- Python str.strip on the character list of a string: remove leading and
trailing whitespace characters. -/
def pyStrip (l : List Char) : List Char :=
  List.rdropWhile (fun c => c.isWhitespace) (l.dropWhile (fun c => c.isWhitespace))

/-- Python str.strip lifted to strings. -/
def strip (s : String) : String :=
  ⟨pyStrip s.data⟩

/-- A task record, as built by TasksCollection.post: the five fields id,
title, completed, created_at, updated_at. -/
structure Task where
  id : Nat
  title : String
  completed : Bool
  created_at : Nat
  updated_at : Nat
deriving Repr, DecidableEq

/-- The module dict _TASKS: an insertion-ordered mapping from id to task. -/
abbrev Store := List (Nat × Task)

/-- The module-level mutable state: _TASKS and _NEXT_ID. -/
structure StoreState where
  tasks : Store
  nextId : Nat
deriving Repr, DecidableEq

/-- The state at process start: empty dict, counter at 1. -/
def initState : StoreState :=
  ⟨[], 1⟩

/-- Error taxonomy of the API: InvalidInput (HTTP 400 or 422) and
NotFound (HTTP 404). -/
inductive ApiError where
  | invalidInput
  | notFound
deriving Repr, DecidableEq

/-- A create request body: the recognized fields of TaskCreateSchema,
each possibly absent. -/
structure CreateBody where
  title : Option String
  completed : Option Bool
deriving Repr, DecidableEq

/-- An update request body: the recognized fields of TaskUpdateSchema,
each possibly absent. -/
structure UpdateBody where
  title : Option String
  completed : Option Bool
deriving Repr, DecidableEq

/-- TaskCreateSchema load: title is required; validate_title rejects a
title that is empty or whose strip is empty; completed defaults to
false (load_default). -/
def loadCreate (b : CreateBody) : Except ApiError (String × Bool) :=
  match b.title with
  | none => .error .invalidInput
  | some t =>
    if t = "" ∨ strip t = "" then .error .invalidInput
    else .ok (t, b.completed.getD false)

/-- TaskUpdateSchema load: both fields optional; validate_title rejects a
present title whose strip is empty. -/
def loadUpdate (b : UpdateBody) : Except ApiError UpdateBody :=
  match b.title with
  | some t => if strip t = "" then .error .invalidInput else .ok b
  | none => .ok b

/-- Dict lookup _TASKS.get(task_id) on the association list. -/
def findTask (id : Nat) : Store → Option Task
  | [] => none
  | (k, t) :: rest => if k = id then some t else findTask id rest

/-- In-place mutation of the record stored under the given id (the
handlers mutate the borrowed dict value, which keeps its position). -/
def storeUpdate (id : Nat) (t : Task) (l : Store) : Store :=
  l.map (fun p => if p.1 = id then (id, t) else p)

/-- Dict deletion del _TASKS of task_id. -/
def storeRemove (id : Nat) (l : Store) : Store :=
  l.filter (fun p => p.1 != id)

/-- TasksCollection.post: validate via TaskCreateSchema, take the current
counter as the id, increment the counter, build the record with the
stripped title and both timestamps set to now, store it. -/
def post (s : StoreState) (b : CreateBody) (now : Nat) :
    Except ApiError (StoreState × Task) :=
  match loadCreate b with
  | .error e => .error e
  | .ok (title, comp) =>
    let task_id := s.nextId
    let task : Task :=
      { id := task_id, title := strip title, completed := comp,
        created_at := now, updated_at := now }
    .ok (⟨s.tasks ++ [(task_id, task)], s.nextId + 1⟩, task)

/-- TaskResource.get composed with the helper that aborts 404: return the
record or NotFound. -/
def getTask (s : StoreState) (id : Nat) : Except ApiError Task :=
  match findTask id s.tasks with
  | some t => .ok t
  | none => .error .notFound

/-- TaskResource.put: validate via TaskUpdateSchema; abort InvalidInput
on an empty payload; abort NotFound if the id is absent; apply the
supplied fields (title stripped); abort InvalidInput if none applied;
set updated_at to now. -/
def put (s : StoreState) (task_id : Nat) (b : UpdateBody) (now : Nat) :
    Except ApiError (StoreState × Task) :=
  match loadUpdate b with
  | .error e => .error e
  | .ok p =>
    if p.title = none ∧ p.completed = none then .error .invalidInput
    else
      match findTask task_id s.tasks with
      | none => .error .notFound
      | some task =>
        let task1 := match p.title with
          | some t => { task with title := strip t }
          | none => task
        let task2 := match p.completed with
          | some c => { task1 with completed := c }
          | none => task1
        let upd := p.title.isSome || p.completed.isSome
        if upd = false then .error .invalidInput
        else
          let task3 := { task2 with updated_at := now }
          .ok (⟨storeUpdate task_id task3 s.tasks, s.nextId⟩, task3)

/-- TaskResource.patch: validate via TaskUpdateSchema; abort NotFound if
the id is absent; abort InvalidInput on an empty payload; in the title
branch re-check the stripped title before applying it; apply completed;
set updated_at to now. -/
def patch (s : StoreState) (task_id : Nat) (b : UpdateBody) (now : Nat) :
    Except ApiError (StoreState × Task) :=
  match loadUpdate b with
  | .error e => .error e
  | .ok p =>
    match findTask task_id s.tasks with
    | none => .error .notFound
    | some task =>
      if p.title = none ∧ p.completed = none then .error .invalidInput
      else
        let step1 : Except ApiError Task := match p.title with
          | some t =>
            if strip t = "" then .error .invalidInput
            else .ok { task with title := strip t }
          | none => .ok task
        match step1 with
        | .error e => .error e
        | .ok task1 =>
          let task2 := match p.completed with
            | some c => { task1 with completed := c }
            | none => task1
          let task3 := { task2 with updated_at := now }
          .ok (⟨storeUpdate task_id task3 s.tasks, s.nextId⟩, task3)

/-- TaskResource.delete: abort NotFound if the id is absent, else remove
the record permanently (the counter is untouched). -/
def deleteTask (s : StoreState) (task_id : Nat) :
    Except ApiError StoreState :=
  match findTask task_id s.tasks with
  | none => .error .notFound
  | some _ => .ok ⟨storeRemove task_id s.tasks, s.nextId⟩

/-- TasksCollection.get: list all current task records. -/
def listTasks (s : StoreState) : List Task :=
  s.tasks.map (fun p => p.2)

/-- The create handler as a state transformer: on error the module state
is left as it was. -/
def stepPost (s : StoreState) (b : CreateBody) (now : Nat) :
    StoreState × Except ApiError Task :=
  match post s b now with
  | .ok (s', t) => (s', .ok t)
  | .error e => (s, .error e)

/-- The put handler as a state transformer. -/
def stepPut (s : StoreState) (id : Nat) (b : UpdateBody) (now : Nat) :
    StoreState × Except ApiError Task :=
  match put s id b now with
  | .ok (s', t) => (s', .ok t)
  | .error e => (s, .error e)

/-- The patch handler as a state transformer. -/
def stepPatch (s : StoreState) (id : Nat) (b : UpdateBody) (now : Nat) :
    StoreState × Except ApiError Task :=
  match patch s id b now with
  | .ok (s', t) => (s', .ok t)
  | .error e => (s, .error e)

/-- The delete handler as a state transformer. -/
def stepDelete (s : StoreState) (id : Nat) : StoreState :=
  match deleteTask s id with
  | .ok s' => s'
  | .error _ => s

/-- One API request against the store: the six operations of the routing
layer, mutating ones carrying their request body and clock reading. -/
inductive Op where
  | create (b : CreateBody) (now : Nat)
  | putOp (id : Nat) (b : UpdateBody) (now : Nat)
  | patchOp (id : Nat) (b : UpdateBody) (now : Nat)
  | deleteOp (id : Nat)
  | getOp (id : Nat)
  | listOp
deriving Repr

/-- Effect of one request on the module state. -/
def step (s : StoreState) : Op → StoreState
  | .create b now => (stepPost s b now).1
  | .putOp id b now => (stepPut s id b now).1
  | .patchOp id b now => (stepPatch s id b now).1
  | .deleteOp id => stepDelete s id
  | .getOp _ => s
  | .listOp => s

/-- Run a sequence of requests from a state. -/
def run : StoreState → List Op → StoreState
  | s, [] => s
  | s, op :: ops => run (step s op) ops

/-- The ids handed out by the successful creates of a request sequence,
in order. -/
def createdIds : StoreState → List Op → List Nat
  | _, [] => []
  | s, .create b now :: ops =>
    match post s b now with
    | .ok (s', t) => t.id :: createdIds s' ops
    | .error _ => createdIds s ops
  | s, op :: ops => createdIds (step s op) ops

/-- A string consisting of whitespace characters only (true of the empty
string as well). -/
def whitespaceOnly (s : String) : Bool :=
  s.data.all Char.isWhitespace

/-- The field application shared by the put and patch handlers: overwrite
title with the stripped supplied title when present, overwrite completed
when present, and set updated_at to now. -/
def applyFields (task : Task) (b : UpdateBody) (now : Nat) : Task :=
  let task1 := match b.title with
    | some t => { task with title := strip t }
    | none => task
  let task2 := match b.completed with
    | some c => { task1 with completed := c }
    | none => task1
  { task2 with updated_at := now }

/-- The stored-title invariant of the data model: a title is never the
empty string and never whitespace-only. -/
def titleOk (x : String) : Prop :=
  x ≠ "" ∧ whitespaceOnly x = false

/-- Every task in the store has a valid title. -/
def titlesOk (s : StoreState) : Prop :=
  ∀ p ∈ s.tasks, titleOk p.2.title

/-- Every id in the store is below the next-id counter. -/
def idsBelow (s : StoreState) : Prop :=
  ∀ p ∈ s.tasks, p.1 < s.nextId

/-- A concrete stored task used to evaluate theorems about existing ids. -/
def demoTask : Task :=
  ⟨1, "A", false, 0, 0⟩

/-- A concrete store holding demoTask under id 1, counter at 2. -/
def demoState : StoreState :=
  ⟨[(1, demoTask)], 2⟩

theorem strip_eq_empty_iff (s : String) : strip s = "" ↔ pyStrip s.data = [] := by
  constructor
  · intro h
    have := congrArg String.data h
    simpa [strip] using this
  · intro h
    simp [strip, h]

theorem pyStrip_all_ws {l : List Char} (h : pyStrip l ≠ []) :
    (pyStrip l).all Char.isWhitespace = false := by
  unfold pyStrip at h ⊢
  have hlast := List.rdropWhile_last_not (fun c => c.isWhitespace)
    (l.dropWhile (fun c => c.isWhitespace)) h
  have hmem := List.getLast_mem h
  cases hall : (List.rdropWhile (fun c => c.isWhitespace)
      (l.dropWhile (fun c => c.isWhitespace))).all Char.isWhitespace
  · rfl
  · exfalso
    rw [List.all_eq_true] at hall
    exact hlast (hall _ hmem)

theorem titleOk_strip {t : String} (h : strip t ≠ "") : titleOk (strip t) := by
  refine ⟨h, ?_⟩
  show (pyStrip t.data).all Char.isWhitespace = false
  exact pyStrip_all_ws fun hnil => h ((strip_eq_empty_iff t).2 hnil)

theorem findTask_mem {id : Nat} {t : Task} :
    ∀ {l : Store}, findTask id l = some t → (id, t) ∈ l := by
  intro l
  induction l with
  | nil => intro h; cases h
  | cons p rest ih =>
    intro h
    obtain ⟨k, u⟩ := p
    by_cases hk : k = id
    · subst hk
      simp only [findTask, if_true, eq_self_iff_true, Option.some.injEq] at h
      subst h
      exact .head _
    · simp only [findTask, if_neg hk] at h
      exact .tail _ (ih h)

theorem findTask_append_fresh {id : Nat} {t : Task} :
    ∀ {l : Store}, (∀ p ∈ l, p.1 ≠ id) → findTask id (l ++ [(id, t)]) = some t := by
  intro l
  induction l with
  | nil => intro _; simp [findTask]
  | cons p rest ih =>
    intro h
    obtain ⟨k, u⟩ := p
    have hk : k ≠ id := h (k, u) (.head _)
    simp only [List.cons_append, findTask, if_neg hk]
    exact ih fun q hq => h q (.tail _ hq)

theorem findTask_storeRemove (id : Nat) :
    ∀ l : Store, findTask id (storeRemove id l) = none := by
  intro l
  induction l with
  | nil => rfl
  | cons p rest ih =>
    obtain ⟨k, u⟩ := p
    by_cases hk : k = id
    · subst hk
      simpa [storeRemove, List.filter_cons] using ih
    · simpa [storeRemove, List.filter_cons, hk, findTask] using ih

theorem storeUpdate_mem {id : Nat} {t : Task} {l : Store} {q : Nat × Task}
    (h : q ∈ storeUpdate id t l) : q ∈ l ∨ q = (id, t) := by
  rcases List.mem_map.1 h with ⟨p, hp, hq⟩
  by_cases hk : p.1 = id
  · right
    rw [if_pos hk] at hq
    exact hq.symm
  · left
    rw [if_neg hk] at hq
    exact hq ▸ hp

theorem storeRemove_subset {id : Nat} {l : Store} {q : Nat × Task}
    (h : q ∈ storeRemove id l) : q ∈ l :=
  (List.mem_filter.1 h).1

theorem loadCreate_ok {b : CreateBody} {ti : String} {c : Bool}
    (h : loadCreate b = .ok (ti, c)) :
    b.title = some ti ∧ c = b.completed.getD false ∧ strip ti ≠ "" := by
  unfold loadCreate at h
  split at h
  · cases h
  · rename_i t heq
    split at h
    · cases h
    · rename_i hcond
      push_neg at hcond
      simp only [Except.ok.injEq, Prod.mk.injEq] at h
      obtain ⟨h1, h2⟩ := h
      subst h1
      exact ⟨heq, h2.symm, hcond.2⟩

theorem loadCreate_error {b : CreateBody} {e : ApiError}
    (h : loadCreate b = .error e) : e = .invalidInput := by
  unfold loadCreate at h
  split at h
  · injection h with h'
    exact h'.symm
  · split at h
    · injection h with h'
      exact h'.symm
    · cases h

theorem loadUpdate_ok {b p : UpdateBody} (h : loadUpdate b = .ok p) :
    p = b ∧ ∀ t, b.title = some t → strip t ≠ "" := by
  unfold loadUpdate at h
  split at h
  · rename_i t heq
    split at h
    · cases h
    · rename_i hst
      simp only [Except.ok.injEq] at h
      refine ⟨h.symm, fun u hu => ?_⟩
      rw [heq] at hu
      cases hu
      exact hst
  · rename_i heq
    simp only [Except.ok.injEq] at h
    exact ⟨h.symm, fun u hu => by rw [heq] at hu; cases hu⟩

theorem loadUpdate_error {b : UpdateBody} {e : ApiError}
    (h : loadUpdate b = .error e) :
    e = .invalidInput ∧ ∃ t, b.title = some t ∧ strip t = "" := by
  unfold loadUpdate at h
  split at h
  · rename_i t heq
    split at h
    · rename_i hst
      injection h with h'
      exact ⟨h'.symm, t, heq, hst⟩
    · cases h
  · cases h

theorem post_ok {s : StoreState} {b : CreateBody} {now : Nat}
    {s' : StoreState} {t : Task} (h : post s b now = .ok (s', t)) :
    ∃ ti, b.title = some ti ∧ strip ti ≠ "" ∧
      t = ⟨s.nextId, strip ti, b.completed.getD false, now, now⟩ ∧
      s' = ⟨s.tasks ++ [(s.nextId, t)], s.nextId + 1⟩ := by
  unfold post at h
  cases hl : loadCreate b with
  | error e => rw [hl] at h; cases h
  | ok pr =>
    obtain ⟨ti, c⟩ := pr
    rw [hl] at h
    simp only [Except.ok.injEq, Prod.mk.injEq] at h
    obtain ⟨hs, ht⟩ := h
    obtain ⟨hb, hc, hst⟩ := loadCreate_ok hl
    subst hc
    exact ⟨ti, hb, hst, ht.symm, by rw [← hs, ← ht]⟩

theorem post_error_kind {s : StoreState} {b : CreateBody} {now : Nat}
    {e : ApiError} (h : post s b now = .error e) : e = .invalidInput := by
  unfold post at h
  split at h
  · rename_i e' heq
    injection h with h'
    exact h' ▸ loadCreate_error heq
  · cases h

theorem put_empty (s : StoreState) (id now : Nat) :
    put s id ⟨none, none⟩ now = .error .invalidInput := rfl

theorem put_badTitle {t : String} (hst : strip t = "") (s : StoreState)
    (id now : Nat) (bc : Option Bool) :
    put s id ⟨some t, bc⟩ now = .error .invalidInput := by
  simp [put, loadUpdate, hst]

theorem put_notFound {s : StoreState} {id : Nat} {b : UpdateBody} {now : Nat}
    (hne : ¬(b.title = none ∧ b.completed = none))
    (hok : ∀ t, b.title = some t → strip t ≠ "")
    (hf : findTask id s.tasks = none) :
    put s id b now = .error .notFound := by
  obtain ⟨bt, bc⟩ := b
  cases bt with
  | some t =>
    have hst : strip t ≠ "" := hok t rfl
    cases bc <;> simp [put, loadUpdate, hst, hf]
  | none =>
    cases bc with
    | some c => simp [put, loadUpdate, hf]
    | none => exact absurd ⟨rfl, rfl⟩ hne

theorem put_found {s : StoreState} {id : Nat} {b : UpdateBody} {now : Nat}
    {task : Task} (hne : ¬(b.title = none ∧ b.completed = none))
    (hok : ∀ t, b.title = some t → strip t ≠ "")
    (hf : findTask id s.tasks = some task) :
    put s id b now =
      .ok (⟨storeUpdate id (applyFields task b now) s.tasks, s.nextId⟩,
        applyFields task b now) := by
  obtain ⟨bt, bc⟩ := b
  cases bt with
  | some t =>
    have hst : strip t ≠ "" := hok t rfl
    cases bc <;> simp [put, loadUpdate, applyFields, hst, hf]
  | none =>
    cases bc with
    | some c => simp [put, loadUpdate, applyFields, hf]
    | none => exact absurd ⟨rfl, rfl⟩ hne

theorem patch_badTitle {t : String} (hst : strip t = "") (s : StoreState)
    (id now : Nat) (bc : Option Bool) :
    patch s id ⟨some t, bc⟩ now = .error .invalidInput := by
  simp [patch, loadUpdate, hst]

theorem patch_notFound {s : StoreState} {id : Nat} {b : UpdateBody} {now : Nat}
    (hok : ∀ t, b.title = some t → strip t ≠ "")
    (hf : findTask id s.tasks = none) :
    patch s id b now = .error .notFound := by
  obtain ⟨bt, bc⟩ := b
  cases bt with
  | some t =>
    have hst : strip t ≠ "" := hok t rfl
    cases bc <;> simp [patch, loadUpdate, hst, hf]
  | none => cases bc <;> simp [patch, loadUpdate, hf]

theorem patch_empty_found {s : StoreState} {id : Nat} {now : Nat} {task : Task}
    (hf : findTask id s.tasks = some task) :
    patch s id ⟨none, none⟩ now = .error .invalidInput := by
  simp [patch, loadUpdate, hf]

theorem patch_found {s : StoreState} {id : Nat} {b : UpdateBody} {now : Nat}
    {task : Task} (hne : ¬(b.title = none ∧ b.completed = none))
    (hok : ∀ t, b.title = some t → strip t ≠ "")
    (hf : findTask id s.tasks = some task) :
    patch s id b now =
      .ok (⟨storeUpdate id (applyFields task b now) s.tasks, s.nextId⟩,
        applyFields task b now) := by
  obtain ⟨bt, bc⟩ := b
  cases bt with
  | some t =>
    have hst : strip t ≠ "" := hok t rfl
    cases bc <;> simp [patch, loadUpdate, applyFields, hst, hf]
  | none =>
    cases bc with
    | some c => simp [patch, loadUpdate, applyFields, hf]
    | none => exact absurd ⟨rfl, rfl⟩ hne

theorem deleteTask_notFound {s : StoreState} {id : Nat}
    (hf : findTask id s.tasks = none) : deleteTask s id = .error .notFound := by
  simp [deleteTask, hf]

theorem deleteTask_found {s : StoreState} {id : Nat} {task : Task}
    (hf : findTask id s.tasks = some task) :
    deleteTask s id = .ok ⟨storeRemove id s.tasks, s.nextId⟩ := by
  simp [deleteTask, hf]

theorem applyFields_title (task : Task) (b : UpdateBody) (now : Nat) :
    (applyFields task b now).title =
      match b.title with
      | some t => strip t
      | none => task.title := by
  obtain ⟨bt, bc⟩ := b
  cases bt <;> cases bc <;> rfl

theorem applyFields_id (task : Task) (b : UpdateBody) (now : Nat) :
    (applyFields task b now).id = task.id := by
  obtain ⟨bt, bc⟩ := b
  cases bt <;> cases bc <;> rfl

theorem applyFields_created_at (task : Task) (b : UpdateBody) (now : Nat) :
    (applyFields task b now).created_at = task.created_at := by
  obtain ⟨bt, bc⟩ := b
  cases bt <;> cases bc <;> rfl

theorem applyFields_updated_at (task : Task) (b : UpdateBody) (now : Nat) :
    (applyFields task b now).updated_at = now := by
  obtain ⟨bt, bc⟩ := b
  cases bt <;> cases bc <;> rfl

theorem applyFields_completed (task : Task) (b : UpdateBody) (now : Nat) :
    (applyFields task b now).completed =
      match b.completed with
      | some c => c
      | none => task.completed := by
  obtain ⟨bt, bc⟩ := b
  cases bt <;> cases bc <;> rfl

theorem stepPost_state (s : StoreState) (b : CreateBody) (now : Nat) :
    (stepPost s b now).1 = s ∨
    ∃ ti, b.title = some ti ∧ strip ti ≠ "" ∧
      (stepPost s b now).1 =
        ⟨s.tasks ++
            [(s.nextId, ⟨s.nextId, strip ti, b.completed.getD false, now, now⟩)],
          s.nextId + 1⟩ := by
  cases hp : post s b now with
  | error e => left; simp [stepPost, hp]
  | ok pr =>
    obtain ⟨s', t⟩ := pr
    obtain ⟨ti, hb, hst, ht, hs⟩ := post_ok hp
    subst ht
    right
    exact ⟨ti, hb, hst, by simp [stepPost, hp, hs]⟩

theorem stepPut_state (s : StoreState) (id : Nat) (b : UpdateBody) (now : Nat) :
    (stepPut s id b now).1 = s ∨
    ∃ task, findTask id s.tasks = some task ∧
      (∀ t, b.title = some t → strip t ≠ "") ∧
      (stepPut s id b now).1 =
        ⟨storeUpdate id (applyFields task b now) s.tasks, s.nextId⟩ := by
  by_cases hbad : ∃ t, b.title = some t ∧ strip t = ""
  · obtain ⟨t, hbt, hst⟩ := hbad
    obtain ⟨bt, bc⟩ := b
    simp only at hbt
    subst hbt
    left
    simp [stepPut, put_badTitle hst]
  · have hok : ∀ t, b.title = some t → strip t ≠ "" :=
      fun t ht hst => hbad ⟨t, ht, hst⟩
    by_cases hne : b.title = none ∧ b.completed = none
    · obtain ⟨h1, h2⟩ := hne
      obtain ⟨bt, bc⟩ := b
      simp only at h1 h2
      subst h1
      subst h2
      left
      simp [stepPut, put_empty]
    · cases hf : findTask id s.tasks with
      | none => left; simp [stepPut, put_notFound hne hok hf]
      | some task =>
        right
        exact ⟨task, rfl, hok, by simp [stepPut, put_found hne hok hf]⟩

theorem stepPatch_state (s : StoreState) (id : Nat) (b : UpdateBody) (now : Nat) :
    (stepPatch s id b now).1 = s ∨
    ∃ task, findTask id s.tasks = some task ∧
      (∀ t, b.title = some t → strip t ≠ "") ∧
      (stepPatch s id b now).1 =
        ⟨storeUpdate id (applyFields task b now) s.tasks, s.nextId⟩ := by
  by_cases hbad : ∃ t, b.title = some t ∧ strip t = ""
  · obtain ⟨t, hbt, hst⟩ := hbad
    obtain ⟨bt, bc⟩ := b
    simp only at hbt
    subst hbt
    left
    simp [stepPatch, patch_badTitle hst]
  · have hok : ∀ t, b.title = some t → strip t ≠ "" :=
      fun t ht hst => hbad ⟨t, ht, hst⟩
    cases hf : findTask id s.tasks with
    | none => left; simp [stepPatch, patch_notFound hok hf]
    | some task =>
      by_cases hne : b.title = none ∧ b.completed = none
      · obtain ⟨h1, h2⟩ := hne
        obtain ⟨bt, bc⟩ := b
        simp only at h1 h2
        subst h1
        subst h2
        left
        simp [stepPatch, patch_empty_found hf]
      · right
        exact ⟨task, rfl, hok, by simp [stepPatch, patch_found hne hok hf]⟩

theorem stepDelete_state (s : StoreState) (id : Nat) :
    stepDelete s id = s ∨ stepDelete s id = ⟨storeRemove id s.tasks, s.nextId⟩ := by
  cases hf : findTask id s.tasks with
  | none => left; simp [stepDelete, deleteTask_notFound hf]
  | some task => right; simp [stepDelete, deleteTask_found hf]

theorem step_nextId_le (s : StoreState) (op : Op) :
    s.nextId ≤ (step s op).nextId := by
  cases op with
  | create b now =>
    rcases stepPost_state s b now with h | ⟨ti, _, _, h⟩ <;>
      simp only [step, h] <;> omega
  | putOp id b now =>
    rcases stepPut_state s id b now with h | ⟨task, _, _, h⟩ <;>
      simp only [step, h] <;> exact le_refl _
  | patchOp id b now =>
    rcases stepPatch_state s id b now with h | ⟨task, _, _, h⟩ <;>
      simp only [step, h] <;> exact le_refl _
  | deleteOp id =>
    rcases stepDelete_state s id with h | h <;> simp only [step, stepDelete] at h ⊢ <;>
      rw [h]
  | getOp id => exact le_refl _
  | listOp => exact le_refl _

theorem titlesOk_step {s : StoreState} (hT : titlesOk s) (op : Op) :
    titlesOk (step s op) := by
  cases op with
  | create b now =>
    rcases stepPost_state s b now with h | ⟨ti, hb, hst, h⟩
    · simp only [step, h]; exact hT
    · simp only [step, h]
      intro p hp
      rcases List.mem_append.1 hp with hp | hp
      · exact hT p hp
      · rcases List.mem_singleton.1 hp with rfl
        exact titleOk_strip hst
  | putOp id b now =>
    rcases stepPut_state s id b now with h | ⟨task, hf, hok, h⟩
    · simp only [step, h]; exact hT
    · simp only [step, h]
      intro p hp
      rcases storeUpdate_mem hp with hp | rfl
      · exact hT p hp
      · show titleOk (applyFields task b now).title
        rw [applyFields_title]
        cases hbt : b.title with
        | some t => exact titleOk_strip (hok t hbt)
        | none => exact hT (id, task) (findTask_mem hf)
  | patchOp id b now =>
    rcases stepPatch_state s id b now with h | ⟨task, hf, hok, h⟩
    · simp only [step, h]; exact hT
    · simp only [step, h]
      intro p hp
      rcases storeUpdate_mem hp with hp | rfl
      · exact hT p hp
      · show titleOk (applyFields task b now).title
        rw [applyFields_title]
        cases hbt : b.title with
        | some t => exact titleOk_strip (hok t hbt)
        | none => exact hT (id, task) (findTask_mem hf)
  | deleteOp id =>
    rcases stepDelete_state s id with h | h <;>
      simp only [step, stepDelete] at h ⊢ <;> rw [h]
    · exact hT
    · intro p hp
      exact hT p (storeRemove_subset hp)
  | getOp id => exact hT
  | listOp => exact hT

theorem idsBelow_step {s : StoreState} (hI : idsBelow s) (op : Op) :
    idsBelow (step s op) := by
  cases op with
  | create b now =>
    rcases stepPost_state s b now with h | ⟨ti, hb, hst, h⟩
    · simp only [step, h]; exact hI
    · simp only [step, h]
      intro p hp
      rcases List.mem_append.1 hp with hp | hp
      · exact Nat.lt_succ_of_lt (hI p hp)
      · rcases List.mem_singleton.1 hp with rfl
        exact Nat.lt_succ_self _
  | putOp id b now =>
    rcases stepPut_state s id b now with h | ⟨task, hf, hok, h⟩
    · simp only [step, h]; exact hI
    · simp only [step, h]
      intro p hp
      rcases storeUpdate_mem hp with hp | rfl
      · exact hI p hp
      · exact hI (id, task) (findTask_mem hf)
  | patchOp id b now =>
    rcases stepPatch_state s id b now with h | ⟨task, hf, hok, h⟩
    · simp only [step, h]; exact hI
    · simp only [step, h]
      intro p hp
      rcases storeUpdate_mem hp with hp | rfl
      · exact hI p hp
      · exact hI (id, task) (findTask_mem hf)
  | deleteOp id =>
    rcases stepDelete_state s id with h | h <;>
      simp only [step, stepDelete] at h ⊢ <;> rw [h]
    · exact hI
    · intro p hp
      exact hI p (storeRemove_subset hp)
  | getOp id => exact hI
  | listOp => exact hI

theorem titlesOk_run : ∀ (ops : List Op) (s : StoreState),
    titlesOk s → titlesOk (run s ops) := by
  intro ops
  induction ops with
  | nil => intro s h; exact h
  | cons op rest ih => intro s h; exact ih _ (titlesOk_step h op)

theorem idsBelow_run : ∀ (ops : List Op) (s : StoreState),
    idsBelow s → idsBelow (run s ops) := by
  intro ops
  induction ops with
  | nil => intro s h; exact h
  | cons op rest ih => intro s h; exact ih _ (idsBelow_step h op)

theorem createdIds_lower : ∀ (ops : List Op) (s : StoreState),
    ∀ i ∈ createdIds s ops, s.nextId ≤ i := by
  intro ops
  induction ops with
  | nil => intro s i hi; cases hi
  | cons op rest ih =>
    intro s i hi
    cases op with
    | create b now =>
      cases hp : post s b now with
      | ok pr =>
        obtain ⟨s', t⟩ := pr
        obtain ⟨ti, _, _, ht, hs⟩ := post_ok hp
        simp only [createdIds, hp] at hi
        rcases List.mem_cons.1 hi with rfl | hi
        · rw [ht]
        · have hle := ih s' i hi
          rw [hs] at hle
          simp only at hle
          omega
      | error e =>
        simp only [createdIds, hp] at hi
        exact ih s i hi
    | putOp id b now =>
      simp only [createdIds] at hi
      exact le_trans (step_nextId_le s (.putOp id b now)) (ih _ i hi)
    | patchOp id b now =>
      simp only [createdIds] at hi
      exact le_trans (step_nextId_le s (.patchOp id b now)) (ih _ i hi)
    | deleteOp id =>
      simp only [createdIds] at hi
      exact le_trans (step_nextId_le s (.deleteOp id)) (ih _ i hi)
    | getOp id =>
      simp only [createdIds] at hi
      exact le_trans (step_nextId_le s (.getOp id)) (ih _ i hi)
    | listOp =>
      simp only [createdIds] at hi
      exact le_trans (step_nextId_le s .listOp) (ih _ i hi)

theorem createdIds_pairwise : ∀ (ops : List Op) (s : StoreState),
    List.Pairwise (· < ·) (createdIds s ops) := by
  intro ops
  induction ops with
  | nil => intro s; exact List.Pairwise.nil
  | cons op rest ih =>
    intro s
    cases op with
    | create b now =>
      cases hp : post s b now with
      | ok pr =>
        obtain ⟨s', t⟩ := pr
        obtain ⟨ti, _, _, ht, hs⟩ := post_ok hp
        simp only [createdIds, hp]
        refine List.Pairwise.cons ?_ (ih s')
        intro j hj
        have hle := createdIds_lower rest s' j hj
        rw [hs] at hle
        simp only at hle
        rw [ht]
        show s.nextId < j
        omega
      | error e =>
        simp only [createdIds, hp]
        exact ih s
    | putOp id b now => simp only [createdIds]; exact ih _
    | patchOp id b now => simp only [createdIds]; exact ih _
    | deleteOp id => simp only [createdIds]; exact ih _
    | getOp id => simp only [createdIds]; exact ih _
    | listOp => simp only [createdIds]; exact ih _

/-- C1: a create request whose title is missing, or empty after trimming,
fails with InvalidInput and leaves the store unchanged, so no record is
added and the next-id counter is not advanced. -/
theorem create_blank_title_rejected (s : StoreState) (b : CreateBody)
    (now : Nat) (h : b.title = none ∨ ∃ t, b.title = some t ∧ strip t = "") :
    stepPost s b now = (s, .error .invalidInput) := by
  have herr : post s b now = .error .invalidInput := by
    rcases h with h | ⟨t, ht, hst⟩
    · simp [post, loadCreate, h]
    · simp [post, loadCreate, ht, hst]
  simp [stepPost, herr]

/-- Witness for C1 at the body whose title is three spaces, on the
initial store. -/
theorem create_blank_title_rejected_witness :
    (strip "   " = "") ∧
      stepPost initState ⟨some "   ", none⟩ 0 =
        (initState, .error .invalidInput) :=
  ⟨by decide,
    create_blank_title_rejected initState ⟨some "   ", none⟩ 0
      (Or.inr ⟨"   ", rfl, by decide⟩)⟩

/-- C2: over any request sequence from process start, the ids handed out
by successful creates are pairwise strictly increasing in order of
assignment, hence unique and never reused after a delete. -/
theorem created_ids_strictly_increase (ops : List Op) :
    List.Pairwise (· < ·) (createdIds initState ops) :=
  createdIds_pairwise ops initState

/-- C3: a successful create immediately followed by a get of the returned
id yields exactly the created record, whose created_at equals its
updated_at. -/
theorem create_get_roundtrip (s : StoreState) (b : CreateBody) (now : Nat)
    (s' : StoreState) (t : Task) (hI : idsBelow s)
    (h : post s b now = .ok (s', t)) :
    getTask s' t.id = .ok t ∧ t.created_at = t.updated_at := by
  obtain ⟨ti, hb, hst, ht, hs⟩ := post_ok h
  constructor
  · have hid : t.id = s.nextId := by rw [ht]
    have hfind : findTask t.id s'.tasks = some t := by
      rw [hs, hid]
      exact findTask_append_fresh fun p hp => Nat.ne_of_lt (hI p hp)
    simp [getTask, hfind]
  · rw [ht]

/-- Witness for C3: create a task titled Buy milk on the initial store
and fetch it back. -/
theorem create_get_roundtrip_witness :
    getTask ⟨[(1, ⟨1, "Buy milk", false, 0, 0⟩)], 2⟩
        (Task.mk 1 "Buy milk" false 0 0).id =
      .ok ⟨1, "Buy milk", false, 0, 0⟩ ∧
    (Task.mk 1 "Buy milk" false 0 0).created_at =
      (Task.mk 1 "Buy milk" false 0 0).updated_at :=
  create_get_roundtrip initState ⟨some "Buy milk", none⟩ 0
    ⟨[(1, ⟨1, "Buy milk", false, 0, 0⟩)], 2⟩ ⟨1, "Buy milk", false, 0, 0⟩
    (by intro p hp; cases hp) (by decide)

/-- C4 counterexample: with an empty body and an id absent from the
store, put signals InvalidInput while patch signals NotFound, so the two
operations do not always produce the same outcome. -/
theorem put_patch_differ_on_empty_body_missing_id :
    put initState 1 ⟨none, none⟩ 0 = .error .invalidInput ∧
      patch initState 1 ⟨none, none⟩ 0 = .error .notFound ∧
      ApiError.invalidInput ≠ ApiError.notFound :=
  ⟨rfl, rfl, by decide⟩

/-- C4 amended: put and patch produce the same outcome and the same
resulting store whenever the body supplies at least one recognized field
or the id exists in the store; they differ only when the body is empty
and the id is absent. -/
theorem put_patch_agree (s : StoreState) (id : Nat) (b : UpdateBody)
    (now : Nat)
    (h : ¬(b.title = none ∧ b.completed = none) ∨
      ∃ task, findTask id s.tasks = some task) :
    stepPut s id b now = stepPatch s id b now := by
  by_cases hbad : ∃ t, b.title = some t ∧ strip t = ""
  · obtain ⟨t, hbt, hst⟩ := hbad
    obtain ⟨bt, bc⟩ := b
    simp only at hbt
    subst hbt
    simp [stepPut, stepPatch, put_badTitle hst, patch_badTitle hst]
  · have hok : ∀ t, b.title = some t → strip t ≠ "" :=
      fun t ht hst => hbad ⟨t, ht, hst⟩
    by_cases hne : b.title = none ∧ b.completed = none
    · rcases h with h | ⟨task, hf⟩
      · exact absurd hne h
      · obtain ⟨h1, h2⟩ := hne
        obtain ⟨bt, bc⟩ := b
        simp only at h1 h2
        subst h1
        subst h2
        simp [stepPut, stepPatch, put_empty, patch_empty_found hf]
    · cases hf : findTask id s.tasks with
      | none =>
        simp [stepPut, stepPatch, put_notFound hne hok hf,
          patch_notFound hok hf]
      | some task =>
        simp [stepPut, stepPatch, put_found hne hok hf,
          patch_found hne hok hf]

/-- Witness for C4 amended: a completed-only body on the demo store. -/
theorem put_patch_agree_witness :
    (¬((UpdateBody.mk none (some true)).title = none ∧
        (UpdateBody.mk none (some true)).completed = none) ∨
      ∃ task, findTask 1 demoState.tasks = some task) ∧
    stepPut demoState 1 ⟨none, some true⟩ 5 =
      stepPatch demoState 1 ⟨none, some true⟩ 5 :=
  ⟨Or.inl (by decide),
    put_patch_agree demoState 1 ⟨none, some true⟩ 5 (Or.inl (by decide))⟩

/-- C5 counterexample: on a store where id 1 exists, the body supplying
the recognized field title with a whitespace-only value makes put fail
with InvalidInput, although a recognized field was supplied, so put does
not succeed whenever at least one recognized field is supplied. -/
theorem put_whitespace_title_rejected_despite_field :
    findTask 1 demoState.tasks = some demoTask ∧
      (UpdateBody.mk (some "   ") none).title ≠ none ∧
      put demoState 1 ⟨some "   ", none⟩ 5 = .error .invalidInput :=
  ⟨rfl, by decide, put_badTitle (by decide) demoState 1 5 none⟩

/-- C5 amended: for an existing id, put signals InvalidInput exactly when
the body supplies no recognized field or supplies a title that is empty
after trimming; otherwise it succeeds, storing the applied record and
setting its updated_at to the current time. -/
theorem put_invalid_iff_no_field_or_blank_title (s : StoreState) (id : Nat)
    (b : UpdateBody) (now : Nat) (task : Task)
    (hf : findTask id s.tasks = some task) :
    (put s id b now = .error .invalidInput ↔
      ((b.title = none ∧ b.completed = none) ∨
        ∃ t, b.title = some t ∧ strip t = "")) ∧
    (¬((b.title = none ∧ b.completed = none) ∨
        ∃ t, b.title = some t ∧ strip t = "") →
      put s id b now =
          .ok (⟨storeUpdate id (applyFields task b now) s.tasks, s.nextId⟩,
            applyFields task b now) ∧
        (applyFields task b now).updated_at = now) := by
  constructor
  · constructor
    · intro herr
      by_contra hcon
      push_neg at hcon
      obtain ⟨hne, hok⟩ := hcon
      rw [put_found (fun hp => hne hp.1 hp.2) (fun t ht => hok t ht) hf]
        at herr
      cases herr
    · intro hcond
      rcases hcond with ⟨h1, h2⟩ | ⟨t, ht, hst⟩
      · obtain ⟨bt, bc⟩ := b
        simp only at h1 h2
        subst h1
        subst h2
        exact put_empty s id now
      · obtain ⟨bt, bc⟩ := b
        simp only at ht
        subst ht
        exact put_badTitle hst s id now bc
  · intro hcon
    push_neg at hcon
    obtain ⟨hne, hok⟩ := hcon
    exact ⟨put_found (fun hp => hne hp.1 hp.2) (fun t ht => hok t ht) hf,
      applyFields_updated_at task b now⟩

/-- Witness for C5 amended at the demo store with a completed-only
body. -/
theorem put_invalid_iff_no_field_or_blank_title_witness :
    ((put demoState 1 ⟨none, some true⟩ 5 = .error .invalidInput ↔
      (((UpdateBody.mk none (some true)).title = none ∧
          (UpdateBody.mk none (some true)).completed = none) ∨
        ∃ t, (UpdateBody.mk none (some true)).title = some t ∧
          strip t = "")) ∧
    (¬(((UpdateBody.mk none (some true)).title = none ∧
          (UpdateBody.mk none (some true)).completed = none) ∨
        ∃ t, (UpdateBody.mk none (some true)).title = some t ∧
          strip t = "") →
      put demoState 1 ⟨none, some true⟩ 5 =
          .ok (⟨storeUpdate 1
              (applyFields demoTask ⟨none, some true⟩ 5) demoState.tasks,
            demoState.nextId⟩, applyFields demoTask ⟨none, some true⟩ 5) ∧
        (applyFields demoTask ⟨none, some true⟩ 5).updated_at = 5)) :=
  put_invalid_iff_no_field_or_blank_title demoState 1 ⟨none, some true⟩ 5
    demoTask rfl

/-- C6: updating an existing task with an empty body fails with
InvalidInput under both put and patch and leaves the whole store, hence
the task record and its updated_at, unchanged. -/
theorem update_empty_body_rejected (s : StoreState) (id : Nat) (now : Nat)
    (task : Task) (hf : findTask id s.tasks = some task) :
    stepPut s id ⟨none, none⟩ now = (s, .error .invalidInput) ∧
      stepPatch s id ⟨none, none⟩ now = (s, .error .invalidInput) := by
  constructor
  · simp [stepPut, put_empty]
  · simp [stepPatch, patch_empty_found hf]

/-- Witness for C6 at the demo store. -/
theorem update_empty_body_rejected_witness :
    findTask 1 demoState.tasks = some demoTask ∧
      (stepPut demoState 1 ⟨none, none⟩ 5 =
          (demoState, .error .invalidInput) ∧
        stepPatch demoState 1 ⟨none, none⟩ 5 =
          (demoState, .error .invalidInput)) :=
  ⟨rfl, update_empty_body_rejected demoState 1 5 demoTask rfl⟩

/-- C7: updating an existing task with a body supplying only completed
true changes only completed and updated_at, leaves id, title and
created_at unchanged, and the new updated_at is at least the prior value
whenever the clock reading is at least the prior updated_at. -/
theorem update_completed_frame (s : StoreState) (id : Nat) (now : Nat)
    (task : Task) (hf : findTask id s.tasks = some task)
    (hclock : task.updated_at ≤ now) :
    ∃ t', put s id ⟨none, some true⟩ now =
        .ok (⟨storeUpdate id t' s.tasks, s.nextId⟩, t') ∧
      patch s id ⟨none, some true⟩ now =
        .ok (⟨storeUpdate id t' s.tasks, s.nextId⟩, t') ∧
      t'.id = task.id ∧ t'.title = task.title ∧
      t'.created_at = task.created_at ∧ t'.completed = true ∧
      task.updated_at ≤ t'.updated_at := by
  refine ⟨applyFields task ⟨none, some true⟩ now,
    put_found (by simp) (by simp) hf,
    patch_found (by simp) (by simp) hf,
    applyFields_id task _ now, applyFields_title task _ now,
    applyFields_created_at task _ now, applyFields_completed task _ now,
    ?_⟩
  rw [applyFields_updated_at]
  exact hclock

/-- Witness for C7 at the demo store at clock reading 5. -/
theorem update_completed_frame_witness :
    findTask 1 demoState.tasks = some demoTask ∧
      demoTask.updated_at ≤ 5 ∧
      ∃ t', put demoState 1 ⟨none, some true⟩ 5 =
          .ok (⟨storeUpdate 1 t' demoState.tasks, demoState.nextId⟩, t') ∧
        patch demoState 1 ⟨none, some true⟩ 5 =
          .ok (⟨storeUpdate 1 t' demoState.tasks, demoState.nextId⟩, t') ∧
        t'.id = demoTask.id ∧ t'.title = demoTask.title ∧
        t'.created_at = demoTask.created_at ∧ t'.completed = true ∧
        demoTask.updated_at ≤ t'.updated_at :=
  ⟨rfl, by decide,
    update_completed_frame demoState 1 5 demoTask rfl (by decide)⟩

/-- C8: after a successful delete of an id, getting that id signals
NotFound and deleting it a second time also signals NotFound. -/
theorem delete_get_redelete_notFound (s : StoreState) (id : Nat)
    (s' : StoreState) (h : deleteTask s id = .ok s') :
    getTask s' id = .error .notFound ∧
      deleteTask s' id = .error .notFound := by
  cases hf : findTask id s.tasks with
  | none => rw [deleteTask_notFound hf] at h; cases h
  | some task =>
    rw [deleteTask_found hf] at h
    injection h with h'
    subst h'
    constructor
    · simp [getTask, findTask_storeRemove]
    · simp [deleteTask, findTask_storeRemove]

/-- Witness for C8: deleting id 1 from the demo store. -/
theorem delete_get_redelete_notFound_witness :
    deleteTask demoState 1 = .ok ⟨[], 2⟩ ∧
      (getTask ⟨[], 2⟩ 1 = .error .notFound ∧
        deleteTask ⟨[], 2⟩ 1 = .error .notFound) :=
  ⟨by decide, delete_get_redelete_notFound demoState 1 ⟨[], 2⟩ (by decide)⟩

/-- C9: after any request sequence from process start, the title of every
task in the store is neither the empty string nor whitespace-only. -/
theorem stored_titles_never_blank (ops : List Op) (t : Task)
    (h : t ∈ listTasks (run initState ops)) :
    t.title ≠ "" ∧ whitespaceOnly t.title = false := by
  have hT : titlesOk (run initState ops) :=
    titlesOk_run ops initState (by intro p hp; cases hp)
  rcases List.mem_map.1 h with ⟨p, hp, rfl⟩
  exact hT p hp

/-- Witness for C9 after a single create. -/
theorem stored_titles_never_blank_witness :
    (Task.mk 1 "Buy milk" false 0 0) ∈
        listTasks (run initState [Op.create ⟨some "Buy milk", none⟩ 0]) ∧
      ((Task.mk 1 "Buy milk" false 0 0).title ≠ "" ∧
        whitespaceOnly (Task.mk 1 "Buy milk" false 0 0).title = false) :=
  ⟨by decide,
    stored_titles_never_blank [Op.create ⟨some "Buy milk", none⟩ 0]
      (Task.mk 1 "Buy milk" false 0 0) (by decide)⟩

/-- C10: every successful create, put or patch supplying a title stores
the title with leading and trailing whitespace removed: the resulting
record title equals the stripped input. -/
theorem stored_title_is_stripped_input (s : StoreState) (now : Nat)
    (ti : String) (id : Nat) (cb : CreateBody) (b : UpdateBody)
    (hcb : cb.title = some ti) (hb : b.title = some ti) :
    (∀ s' t, post s cb now = .ok (s', t) → t.title = strip ti) ∧
    (∀ s' t, put s id b now = .ok (s', t) → t.title = strip ti) ∧
    (∀ s' t, patch s id b now = .ok (s', t) → t.title = strip ti) := by
  refine ⟨?_, ?_, ?_⟩
  · intro s' t h
    obtain ⟨ti', hb', _, ht, _⟩ := post_ok h
    rw [hcb] at hb'
    injection hb' with hb''
    subst hb''
    rw [ht]
  · intro s' t h
    by_cases hst : strip ti = ""
    · obtain ⟨bt, bc⟩ := b
      simp only at hb
      subst hb
      rw [put_badTitle hst] at h
      cases h
    · have hne : ¬(b.title = none ∧ b.completed = none) := by
        rw [hb]; simp
      have hok : ∀ u, b.title = some u → strip u ≠ "" := by
        intro u hu
        rw [hb] at hu
        injection hu with hu'
        subst hu'
        exact hst
      cases hf : findTask id s.tasks with
      | none => rw [put_notFound hne hok hf] at h; cases h
      | some task =>
        rw [put_found hne hok hf] at h
        injection h with h'
        injection h' with h1 h2
        rw [← h2, applyFields_title, hb]
  · intro s' t h
    by_cases hst : strip ti = ""
    · obtain ⟨bt, bc⟩ := b
      simp only at hb
      subst hb
      rw [patch_badTitle hst] at h
      cases h
    · have hne : ¬(b.title = none ∧ b.completed = none) := by
        rw [hb]; simp
      have hok : ∀ u, b.title = some u → strip u ≠ "" := by
        intro u hu
        rw [hb] at hu
        injection hu with hu'
        subst hu'
        exact hst
      cases hf : findTask id s.tasks with
      | none => rw [patch_notFound hok hf] at h; cases h
      | some task =>
        rw [patch_found hne hok hf] at h
        injection h with h'
        injection h' with h1 h2
        rw [← h2, applyFields_title, hb]

/-- Witness for C10: creating with a padded title stores the trimmed
text. -/
theorem stored_title_is_stripped_input_witness :
    (Task.mk 1 "Buy milk" false 0 0).title = strip "  Buy milk  " :=
  (stored_title_is_stripped_input initState 0 "  Buy milk  " 1
      ⟨some "  Buy milk  ", none⟩ ⟨some "  Buy milk  ", none⟩ rfl rfl).1
    ⟨[(1, ⟨1, "Buy milk", false, 0, 0⟩)], 2⟩ ⟨1, "Buy milk", false, 0, 0⟩
    (by decide)

end TodoBackend
